import Mathlib

/-!
Verification of the spill/vessel correlation core of the AiSS repository.

The repository consists of three near-duplicate Streamlit applications
(`src/app.py`, `src/ais.py` and the unnamed variant `src/unnamed/part_000`,
whose header identifies it as `ais (2).py`).  The non-presentational core is:

* two loaders (`load_spills_data`, `load_ais_data`) that validate a schema,
  derive timestamps and drop unparseable rows;
* the matcher `find_candidates`, built on
  `gpd.sjoin(vessels, spills, predicate='within')` followed by a temporal
  filter over a look-back window;
* aggregates over the candidate table: `drop_duplicates`-based incident
  counts and area sums per vessel, per-spill distinct-vessel counts, and the
  per-spill prime suspect obtained with `groupby('spill_id')['time_to_detection'].idxmin()`.

This file is a shallow embedding of that core.  GeoDataFrames become lists of
records, float coordinates and areas become rationals, pandas timestamps
become integers (seconds), `timedelta(hours=h)` becomes `3600 * h`, and the
two `pd.to_datetime` parsers used by the loaders are taken as function
parameters (their internals belong to pandas, not to this repository).

The spatial predicate `'within'` of `gpd.sjoin` is shapely's DE-9IM
*within*: for a point and a polygon it holds exactly when the point lies in
the polygon's interior — a point on the polygon's boundary is *not* within
(it only satisfies `touches` / `covered_by`).  `pointWithin` below models
this: a point is within a simple polygon iff it is not on the boundary and a
standard ray-cast parity test reports it inside.
-/

/-- A planar point (longitude `x`, latitude `y`), rationals in place of the
source's floats. -/
structure Point where
  x : ℚ
  y : ℚ
deriving DecidableEq

/-- The edge list of a polygon given as its vertex ring: consecutive vertex
pairs, closing back to the first vertex. -/
def polygonEdges (poly : List Point) : List (Point × Point) :=
  match poly with
  | [] => []
  | v :: _ => poly.zip (poly.tail ++ [v])

/-- `p` lies on the closed segment from `a` to `b`: collinear and inside the
bounding box of the segment. -/
def pointOnSegment (p a b : Point) : Bool :=
  decide ((b.x - a.x) * (p.y - a.y) - (b.y - a.y) * (p.x - a.x) = 0) &&
    decide (min a.x b.x ≤ p.x) && decide (p.x ≤ max a.x b.x) &&
    decide (min a.y b.y ≤ p.y) && decide (p.y ≤ max a.y b.y)

/-- `p` lies on the boundary of the polygon `poly`. -/
def pointOnBoundary (p : Point) (poly : List Point) : Bool :=
  (polygonEdges poly).any (fun e => pointOnSegment p e.1 e.2)

/-- One step of the ray-cast parity test: the horizontal ray from `p` to the
right crosses the edge from `a` to `b` (half-open rule on the vertices). -/
def edgeCrosses (p a b : Point) : Bool :=
  (decide (a.y > p.y) != decide (b.y > p.y)) &&
    decide (p.x < a.x + (b.x - a.x) * (p.y - a.y) / (b.y - a.y))

/-- Ray-cast parity of `p` against `poly`: `true` iff the rightward ray
crosses an odd number of edges.  For a point not on the boundary of a simple
polygon this is interior membership. -/
def raycastOdd (p : Point) (poly : List Point) : Bool :=
  (polygonEdges poly).foldl (fun acc e => if edgeCrosses p e.1 e.2 then !acc else acc) false

/-- Model of the shapely/DE-9IM `within` predicate used by
`gpd.sjoin(vessels_gdf, spills_gdf, predicate='within')` for a point against
a polygon: the point lies in the polygon's *interior*.  Boundary points are
excluded — in DE-9IM a geometry is within another only if their interiors
intersect, and the interior of a boundary point never meets the polygon's
interior. -/
def pointWithin (p : Point) (poly : List Point) : Bool :=
  !pointOnBoundary p poly && raycastOdd p poly

/-- A normalized spill row as produced by `load_spills_data`: columns
`spill_id` (renamed from `slick_name`), `geometry`, `detection_date`,
`area_sq_km` (renamed from `area_sys`). -/
structure SpillRecord where
  spill_id : String
  geometry : List Point
  detection_date : ℤ
  area_sq_km : ℚ
deriving DecidableEq

/-- A normalized AIS row as produced by `load_ais_data`: columns `mmsi`,
optional `vessel_name`, the point built by `gpd.points_from_xy(longitude,
latitude)` and the parsed `timestamp`. -/
structure VesselPosition where
  mmsi : ℤ
  vessel_name : Option String
  geometry : Point
  timestamp : ℤ
deriving DecidableEq

/-- A row of the candidate table returned by `find_candidates`: the vessel
row joined with the spill row it falls within. -/
structure Candidate where
  vessel : VesselPosition
  spill : SpillRecord
deriving DecidableEq

/-- `timedelta(hours=time_window_hours)`, in seconds. -/
def time_delta (time_window_hours : ℕ) : ℤ := 3600 * (time_window_hours : ℤ)

/-- `gpd.sjoin(vessels_gdf, spills_gdf, predicate='within')`: one output row
per (vessel row, spill row) pair whose vessel point is within the spill
polygon, left rows in order, each joined against the matching spills in
order. -/
def sjoin_within (vessels : List VesselPosition) (spills : List SpillRecord) :
    List Candidate :=
  vessels.flatMap fun v =>
    (spills.filter fun s => pointWithin v.geometry s.geometry).map fun s => ⟨v, s⟩

/-- The temporal filter of `find_candidates`:
`(candidates['timestamp'] <= candidates['detection_date']) &
 (candidates['timestamp'] >= candidates['detection_date'] - time_delta)`. -/
def temporal_pred (time_window_hours : ℕ) (c : Candidate) : Bool :=
  decide (c.vessel.timestamp ≤ c.spill.detection_date) &&
    decide (c.spill.detection_date - time_delta time_window_hours ≤ c.vessel.timestamp)

/-- `find_candidates` of `src/ais.py` (lines 130–141): empty-input guard,
spatial join with predicate `'within'`, empty-join guard, temporal filter. -/
def find_candidates (spills_gdf : List SpillRecord) (vessels_gdf : List VesselPosition)
    (time_window_hours : ℕ) : List Candidate :=
  if spills_gdf.isEmpty || vessels_gdf.isEmpty then []
  else
    let candidates := sjoin_within vessels_gdf spills_gdf
    if candidates.isEmpty then []
    else candidates.filter (temporal_pred time_window_hours)

/-- `find_candidates` of `src/app.py` (lines 140–151).  This variant guards
on `spills_gdf is None or vessels_gdf is None` (modelled with `Option`)
rather than on emptiness; the join and the temporal filter are identical. -/
def find_candidates_app (spills_gdf : Option (List SpillRecord))
    (vessels_gdf : Option (List VesselPosition)) (time_window_hours : ℕ) :
    List Candidate :=
  match spills_gdf, vessels_gdf with
  | some spills, some vessels =>
    let candidates := sjoin_within vessels spills
    if candidates.isEmpty then []
    else candidates.filter (temporal_pred time_window_hours)
  | _, _ => []

/-- `find_candidates` of `src/unnamed/part_000` (`ais (2).py`, lines
131–142), textually identical to the `src/ais.py` variant. -/
def find_candidates_ais2 (spills_gdf : List SpillRecord)
    (vessels_gdf : List VesselPosition) (time_window_hours : ℕ) : List Candidate :=
  if spills_gdf.isEmpty || vessels_gdf.isEmpty then []
  else
    let candidates := sjoin_within vessels_gdf spills_gdf
    if candidates.isEmpty then []
    else candidates.filter (temporal_pred time_window_hours)

/-- `candidates['detection_date'] - candidates['timestamp']`, the
`time_to_detection` column. -/
def time_to_detection (c : Candidate) : ℤ :=
  c.spill.detection_date - c.vessel.timestamp

/-! ### Aggregates over the candidate table -/

/-- `candidates_df.drop_duplicates(subset=['mmsi', 'spill_id'])`, generalized
over the already-seen key set: keep the first row carrying each
`(mmsi, spill_id)` pair. -/
def drop_duplicates_mmsi_spill_aux (seen : List (ℤ × String)) :
    List Candidate → List Candidate
  | [] => []
  | c :: cs =>
    if (c.vessel.mmsi, c.spill.spill_id) ∈ seen then
      drop_duplicates_mmsi_spill_aux seen cs
    else
      c :: drop_duplicates_mmsi_spill_aux ((c.vessel.mmsi, c.spill.spill_id) :: seen) cs

/-- `unique_incidents = candidates_df.drop_duplicates(subset=['mmsi', 'spill_id'])`
(first occurrence kept, pandas default). -/
def unique_incidents (candidates_df : List Candidate) : List Candidate :=
  drop_duplicates_mmsi_spill_aux [] candidates_df

/-- `ship_incident_counts = unique_incidents.groupby('mmsi').size()`, read at
the key `m`. -/
def ship_incident_count (candidates_df : List Candidate) (m : ℤ) : ℕ :=
  ((unique_incidents candidates_df).filter fun c => decide (c.vessel.mmsi = m)).length

/-- `ship_area_sum = unique_incidents.groupby('mmsi')['area_sq_km'].sum()`,
read at the key `m`. -/
def ship_area_sum (candidates_df : List Candidate) (m : ℤ) : ℚ :=
  (((unique_incidents candidates_df).filter fun c => decide (c.vessel.mmsi = m)).map
    fun c => c.spill.area_sq_km).sum

/-- `spill_candidate_counts = candidates_df.groupby('spill_id')['mmsi'].nunique()`,
read at the key `sid`. -/
def spill_candidate_count (candidates_df : List Candidate) (sid : String) : ℕ :=
  (((candidates_df.filter fun c => decide (c.spill.spill_id = sid)).map
    fun c => c.vessel.mmsi).dedup).length

/-- The left fold behind `Series.idxmin` on a non-empty group: the running
best is replaced only by a strictly smaller `time_to_detection`, so the first
row attaining the minimum wins. -/
def idxmin_loc (x : Candidate) (xs : List Candidate) : Candidate :=
  xs.foldl (fun best c => if time_to_detection c < time_to_detection best then c else best) x

/-- The row selected by `groupby('spill_id')['time_to_detection'].idxmin()`
for the key `sid`: among the rows of spill `sid` in input order (`groupby`
preserves within-group order), the first row attaining the minimal
`time_to_detection`; `none` when the spill has no candidate row.  This is the
per-group *selection* only: the program then reads the selected labels back
with `candidates_df.loc[...]`, whose fan-out over duplicate index labels is
modelled below (`prime_suspects_rows`); this value-level selection is what
the `CandidatesFrame` state model of the analytics block reads. -/
def prime_suspect (candidates_df : List Candidate) (sid : String) : Option Candidate :=
  match candidates_df.filter fun c => decide (c.spill.spill_id = sid) with
  | [] => none
  | x :: xs => some (idxmin_loc x xs)

/-! ### The candidate table with its index labels

`gpd.sjoin(vessels_gdf, spills_gdf, ...)` keeps the *left* (vessels) index:
every output row carries the integer label of the vessel row it came from,
and a vessel position lying inside several spill polygons yields several
candidate rows bearing the *same* label.  `prime_suspects_idx` is a Series of
such labels (one per spill group), and `candidates_df.loc[prime_suspects_idx]`
on this possibly non-unique index returns, for each selected label, *every*
row bearing it.  The definitions below model the candidate table together
with these labels. -/

/-- The `RangeIndex` of the vessels frame: label the rows `n, n+1, ...`. -/
def with_index_from (n : ℕ) : List VesselPosition → List (ℕ × VesselPosition)
  | [] => []
  | v :: vs => (n, v) :: with_index_from (n + 1) vs

/-- `gpd.sjoin(vessels_gdf, spills_gdf, predicate='within')` with the left
index made explicit: each output row keeps the label of its vessel row. -/
def sjoin_within_idx (vessels : List VesselPosition) (spills : List SpillRecord) :
    List (ℕ × Candidate) :=
  (with_index_from 0 vessels).flatMap fun iv =>
    (spills.filter fun s => pointWithin iv.2.geometry s.geometry).map fun s =>
      (iv.1, ⟨iv.2, s⟩)

/-- `find_candidates` of `src/ais.py` with the frame's index labels made
explicit: same guards, same join, same temporal filter (which keeps labels). -/
def find_candidates_idx (spills_gdf : List SpillRecord)
    (vessels_gdf : List VesselPosition) (time_window_hours : ℕ) :
    List (ℕ × Candidate) :=
  if spills_gdf.isEmpty || vessels_gdf.isEmpty then []
  else
    let candidates := sjoin_within_idx vessels_gdf spills_gdf
    if candidates.isEmpty then []
    else candidates.filter fun ic => temporal_pred time_window_hours ic.2

/-- The `idxmin` fold on labeled rows: the running best is replaced only by a
strictly smaller `time_to_detection`, so the first row attaining the minimum
wins. -/
def idxmin_row (x : ℕ × Candidate) (xs : List (ℕ × Candidate)) : ℕ × Candidate :=
  xs.foldl
    (fun best c => if time_to_detection c.2 < time_to_detection best.2 then c else best) x

/-- `prime_suspects_idx = candidates_df.groupby('spill_id')['time_to_detection'].idxmin()`,
read at the key `sid`: the index *label* of the first row of spill `sid` (in
input order) attaining the group's minimal `time_to_detection`; `none` when
the spill has no candidate row. -/
def prime_suspects_idx (rows : List (ℕ × Candidate)) (sid : String) : Option ℕ :=
  match rows.filter fun ic => decide (ic.2.spill.spill_id = sid) with
  | [] => none
  | x :: xs => some (idxmin_row x xs).1

/-- `candidates_df.loc[label]` on a possibly non-unique index: every row
bearing the label, in frame order. -/
def loc_rows (rows : List (ℕ × Candidate)) (label : ℕ) : List (ℕ × Candidate) :=
  rows.filter fun ic => decide (ic.1 = label)

/-- The rows that `prime_suspects_df = candidates_df.loc[prime_suspects_idx]`
fetches on behalf of the spill `sid`: all rows bearing the label that `idxmin`
selected for that spill's group — possibly several rows, possibly rows of
other spills, when the label is duplicated in the frame. -/
def prime_suspects_rows (rows : List (ℕ × Candidate)) (sid : String) :
    List (ℕ × Candidate) :=
  match prime_suspects_idx rows sid with
  | none => []
  | some label => loc_rows rows label

/-- Lexicographic comparison of character lists, the order in which pandas
enumerates sorted string group keys. -/
def chars_lt : List Char → List Char → Bool
  | [], [] => false
  | [], _ :: _ => true
  | _ :: _, [] => false
  | a :: as, b :: bs =>
    if a.toNat < b.toNat then true
    else if b.toNat < a.toNat then false
    else chars_lt as bs

/-- Lexicographic order on strings (via their character lists). -/
def str_lt (a b : String) : Bool := chars_lt a.data b.data

/-- Lexicographic insertion used to model `groupby`'s sorted group keys. -/
def insert_key (s : String) : List String → List String
  | [] => [s]
  | t :: ts =>
    if str_lt s t || decide (s = t) then s :: t :: ts else t :: insert_key s ts

/-- Insertion sort of group keys (pandas `groupby` sorts keys by default). -/
def sort_keys : List String → List String
  | [] => []
  | s :: ss => insert_key s (sort_keys ss)

/-- The group keys of the frame: its distinct `spill_id` values in sorted
order, as `groupby('spill_id')` enumerates them. -/
def group_keys (rows : List (ℕ × Candidate)) : List String :=
  sort_keys ((rows.map fun ic => ic.2.spill.spill_id).dedup)

/-- `prime_suspects_df = candidates_df.loc[prime_suspects_idx]`: the
concatenation, over the spill groups in key order, of all rows bearing each
group's selected label. -/
def prime_suspects_df_idx (rows : List (ℕ × Candidate)) : List (ℕ × Candidate) :=
  (group_keys rows).flatMap fun sid => prime_suspects_rows rows sid

/-! ### Loaders -/

/-- A raw feature of the spills GeoJSON source, before normalization.  The
`date` and `time` fields carry the values of the optional columns; whether
those columns exist at all is recorded on the table. -/
structure RawSpillRow where
  slick_name : String
  area_sys : ℚ
  geometry : List Point
  date : String
  time : String
deriving DecidableEq

/-- The raw spills source: which columns are present, plus the rows. -/
structure RawSpillTable where
  has_slick_name : Bool
  has_area_sys : Bool
  has_date : Bool
  has_time : Bool
  rows : List RawSpillRow
deriving DecidableEq

/-- A raw row of the AIS CSV source.  `latitude`/`longitude` are nullable
(`dropna` removes null coordinates). -/
structure RawAisRow where
  mmsi : ℤ
  vessel_name : Option String
  latitude : Option ℚ
  longitude : Option ℚ
  base_date_time : String
deriving DecidableEq

/-- The raw AIS source: which required columns are present, plus the rows. -/
structure RawAisTable where
  has_mmsi : Bool
  has_latitude : Bool
  has_longitude : Bool
  has_base_date_time : Bool
  rows : List RawAisRow
deriving DecidableEq

/-- `load_spills_data` of `src/ais.py` (lines 73–94): schema check on
`['slick_name', 'area_sys']` (empty result on failure, after `st.error`),
rename to `spill_id`/`area_sq_km`, derivation of the `detection_date` column —
`pd.to_datetime(gdf['date'] + ' ' + gdf['time'], errors='coerce')` when both
the `date` and `time` columns exist, else
`pd.to_datetime(gdf['spill_id'], format='%Y-%m-%d_%H:%M:%S', errors='coerce')`
on the identifier — and `dropna(subset=['detection_date'])`.  The two pandas
parsers are parameters `to_datetime` (free-form) and `to_datetime_fmt` (the
fixed `%Y-%m-%d_%H:%M:%S` pattern); `errors='coerce'` is their `Option`
result.  The CRS normalization is the identity on the modelled data. -/
def load_spills_data (to_datetime : String → Option ℤ)
    (to_datetime_fmt : String → Option ℤ) (tbl : RawSpillTable) : List SpillRecord :=
  if !(tbl.has_slick_name && tbl.has_area_sys) then []
  else
    let withDet := tbl.rows.map fun row =>
      (row,
        if tbl.has_date && tbl.has_time then to_datetime (row.date ++ " " ++ row.time)
        else to_datetime_fmt row.slick_name)
    withDet.filterMap fun rd =>
      rd.2.map fun d =>
        { spill_id := rd.1.slick_name, geometry := rd.1.geometry
          detection_date := d, area_sq_km := rd.1.area_sys }

/-- `load_spills_data` of `src/app.py` (lines 74–102): identical derivation,
but the failure sentinel is `None` instead of an empty frame, and an extra
guard returns `None` when no row survives the date parsing. -/
def load_spills_data_app (to_datetime : String → Option ℤ)
    (to_datetime_fmt : String → Option ℤ) (tbl : RawSpillTable) :
    Option (List SpillRecord) :=
  if !(tbl.has_slick_name && tbl.has_area_sys) then none
  else
    let gdf := load_spills_data to_datetime to_datetime_fmt tbl
    if gdf.isEmpty then none else some gdf

/-- `load_ais_data` of `src/ais.py` (lines 96–115): schema check on
`['mmsi', 'latitude', 'longitude', 'BaseDateTime']` (empty result on failure),
timestamp parsing with `errors='coerce'`, `dropna` on timestamp and
coordinates, and point construction by
`gpd.points_from_xy(df.longitude, df.latitude)`. -/
def load_ais_data (to_datetime : String → Option ℤ) (tbl : RawAisTable) :
    List VesselPosition :=
  if !(tbl.has_mmsi && tbl.has_latitude && tbl.has_longitude
      && tbl.has_base_date_time) then []
  else
    tbl.rows.filterMap fun row =>
      match to_datetime row.base_date_time, row.latitude, row.longitude with
      | some t, some la, some lo =>
        some { mmsi := row.mmsi, vessel_name := row.vessel_name
               geometry := ⟨lo, la⟩, timestamp := t }
      | _, _, _ => none

/-- The main flow of `src/ais.py` (lines 144–150 and 236): load both sources,
stop with no results when either collection comes back empty (which is in
particular the schema-error sentinel), otherwise run the matcher. -/
def run_analysis (to_datetime : String → Option ℤ)
    (to_datetime_fmt : String → Option ℤ) (to_datetime_ais : String → Option ℤ)
    (spills_src : RawSpillTable) (ais_src : RawAisTable) (w : ℕ) :
    Option (List Candidate) :=
  let spills_gdf := load_spills_data to_datetime to_datetime_fmt spills_src
  let vessels_gdf := load_ais_data to_datetime_ais ais_src
  if spills_gdf.isEmpty || vessels_gdf.isEmpty then none
  else some (find_candidates spills_gdf vessels_gdf w)

/-! ### The candidate frame as a mutable object -/

/-- The candidate dataframe as the stateful object the analytics block
operates on: its candidate rows plus the `time_to_detection` column, which is
absent until the prime-suspect block assigns it. -/
structure CandidatesFrame where
  rows : List Candidate
  ttd_col : Option (List ℤ)
deriving DecidableEq

/-- The per-vessel incident-count aggregation as a state transformer on the
shared frame (reads rows only). -/
def ship_incident_counts_step (df : CandidatesFrame) : CandidatesFrame × (ℤ → ℕ) :=
  (df, fun m => ship_incident_count df.rows m)

/-- The per-vessel area-sum aggregation as a state transformer on the shared
frame (reads rows only). -/
def ship_area_sum_step (df : CandidatesFrame) : CandidatesFrame × (ℤ → ℚ) :=
  (df, fun m => ship_area_sum df.rows m)

/-- The per-spill distinct-vessel-count aggregation as a state transformer on
the shared frame (reads rows only). -/
def spill_candidate_counts_step (df : CandidatesFrame) :
    CandidatesFrame × (String → ℕ) :=
  (df, fun sid => spill_candidate_count df.rows sid)

/-- The prime-suspect block (`src/ais.py` lines 290–292, `src/app.py` lines
361–363): first executes
`candidates_df['time_to_detection'] = candidates_df['detection_date'] - candidates_df['timestamp']`,
assigning a new column on the shared frame in place, then selects the
`idxmin` row per spill. -/
def prime_suspects_step (df : CandidatesFrame) :
    CandidatesFrame × (String → Option Candidate) :=
  let df' : CandidatesFrame :=
    { rows := df.rows, ttd_col := some (df.rows.map time_to_detection) }
  (df', fun sid => prime_suspect df'.rows sid)

/-! ### Concrete demonstration inputs (a 4×4 square spill polygon, vessels
inside it and on its boundary) used by counterexamples and witnesses. -/

def demoPoly : List Point := [⟨0, 0⟩, ⟨4, 0⟩, ⟨4, 4⟩, ⟨0, 4⟩]

def demoSpill : SpillRecord :=
  { spill_id := "2024-01-10_12:00:00", geometry := demoPoly
    detection_date := 100000, area_sq_km := 5 }

def demoVessel : VesselPosition :=
  { mmsi := 111, vessel_name := none, geometry := ⟨2, 2⟩, timestamp := 85600 }

def demoCand : Candidate := ⟨demoVessel, demoSpill⟩

def boundaryVessel : VesselPosition :=
  { mmsi := 222, vessel_name := none, geometry := ⟨0, 2⟩, timestamp := 95000 }

/-- A second qualifying position of the `demoVessel` ship inside the same
spill: same `mmsi`, different point and time. -/
def demoVessel2 : VesselPosition :=
  { mmsi := 111, vessel_name := none, geometry := ⟨3, 3⟩, timestamp := 90000 }

def demoCand2 : Candidate := ⟨demoVessel2, demoSpill⟩

/-- Suspect rows for the tie-break demonstration: `suspectEarly` is farthest
from detection; `suspectA` and `suspectB` attain the same minimal
`time_to_detection`, `suspectA` first in input order. -/
def suspectEarly : Candidate :=
  ⟨{ mmsi := 301, vessel_name := none, geometry := ⟨1, 1⟩, timestamp := 85600 }, demoSpill⟩

def suspectA : Candidate :=
  ⟨{ mmsi := 302, vessel_name := none, geometry := ⟨2, 1⟩, timestamp := 90000 }, demoSpill⟩

def suspectB : Candidate :=
  ⟨{ mmsi := 303, vessel_name := none, geometry := ⟨1, 2⟩, timestamp := 90000 }, demoSpill⟩

def demoTieList : List Candidate := [suspectEarly, suspectA, suspectB]

/-- Free-form timestamp parser used by loader witnesses: recognizes exactly
the one date/time string of the demonstration table. -/
def demoParse : String → Option ℤ := fun str =>
  if str = "2024-01-10 12:00:00" then some 100000 else none

/-- Fixed-pattern (`%Y-%m-%d_%H:%M:%S`) parser used by loader witnesses. -/
def demoParseFmt : String → Option ℤ := fun str =>
  if str = "2024-01-10_12:00:00" then some 100000 else none

/-- A demonstration spills source with both optional columns present: one row
with a parseable date/time, one row whose date/time cannot be parsed. -/
def demoSpillTbl : RawSpillTable :=
  { has_slick_name := true, has_area_sys := true, has_date := true, has_time := true
    rows :=
      [ { slick_name := "2024-01-10_12:00:00", area_sys := 5, geometry := demoPoly
          date := "2024-01-10", time := "12:00:00" },
        { slick_name := "slick-two", area_sys := 1, geometry := demoPoly
          date := "not a date", time := "xx" } ] }

/-- A spills source missing the required `area_sys` field. -/
def demoBadSpillTbl : RawSpillTable :=
  { has_slick_name := true, has_area_sys := false, has_date := false, has_time := false
    rows := [ { slick_name := "2024-01-10_12:00:00", area_sys := 0, geometry := demoPoly
                date := "", time := "" } ] }

/-- A well-formed AIS source with one parseable row. -/
def demoAisTbl : RawAisTable :=
  { has_mmsi := true, has_latitude := true, has_longitude := true
    has_base_date_time := true
    rows := [ { mmsi := 111, vessel_name := none, latitude := some 2
                longitude := some 2, base_date_time := "2024-01-10 08:00:00" } ] }

/-- A second spill polygon, the square `[3, 7] × [0, 4]`, overlapping
`demoPoly` on `[3, 4] × [0, 4]`. -/
def overlapPolyB : List Point := [⟨3, 0⟩, ⟨7, 0⟩, ⟨7, 4⟩, ⟨3, 4⟩]

def overlapSpillA : SpillRecord :=
  { spill_id := "sa", geometry := demoPoly, detection_date := 100000, area_sq_km := 2 }

def overlapSpillB : SpillRecord :=
  { spill_id := "sb", geometry := overlapPolyB, detection_date := 100000
    area_sq_km := 3 }

/-- A vessel inside the overlap of both spill polygons: its single frame label
ends up on a candidate row of each spill. -/
def overlapVessel0 : VesselPosition :=
  { mmsi := 401, vessel_name := none, geometry := ⟨7/2, 2⟩, timestamp := 99000 }

/-- A vessel inside `overlapSpillB` only, closer to its detection than
`overlapVessel0`. -/
def overlapVessel1 : VesselPosition :=
  { mmsi := 402, vessel_name := none, geometry := ⟨6, 2⟩, timestamp := 99500 }

/-- The labeled candidate frame of the overlap scenario. -/
def overlapRows : List (ℕ × Candidate) :=
  [(0, ⟨overlapVessel0, overlapSpillA⟩), (0, ⟨overlapVessel0, overlapSpillB⟩),
   (1, ⟨overlapVessel1, overlapSpillB⟩)]

/-- The tie-break rows with their (distinct) frame labels. -/
def demoIdxTieList : List (ℕ × Candidate) :=
  [(0, suspectEarly), (1, suspectA), (2, suspectB)]

/-! ### Basic shape of `find_candidates` -/

theorem filter_after_empty_guard (l : List Candidate) (p : Candidate → Bool) :
    (if l.isEmpty then ([] : List Candidate) else l.filter p) = l.filter p := by
  cases l <;> simp

theorem sjoin_within_nil_spills (vessels : List VesselPosition) :
    sjoin_within vessels [] = [] := by
  simp [sjoin_within]

/-- The two emptiness guards of `find_candidates` never change the result:
the function always returns the temporal filter of the spatial join. -/
theorem find_candidates_eq_filter (spills : List SpillRecord)
    (vessels : List VesselPosition) (w : ℕ) :
    find_candidates spills vessels w
      = (sjoin_within vessels spills).filter (temporal_pred w) := by
  unfold find_candidates
  rcases spills with _ | ⟨s, ss⟩
  · simp [sjoin_within]
  rcases vessels with _ | ⟨v, vs⟩
  · simp [sjoin_within]
  · simpa using filter_after_empty_guard (sjoin_within (v :: vs) (s :: ss)) _

/-- Same normal form for the `src/app.py` variant on non-`None` inputs. -/
theorem find_candidates_app_eq_filter (spills : List SpillRecord)
    (vessels : List VesselPosition) (w : ℕ) :
    find_candidates_app (some spills) (some vessels) w
      = (sjoin_within vessels spills).filter (temporal_pred w) := by
  unfold find_candidates_app
  simpa using filter_after_empty_guard (sjoin_within vessels spills) _

/-- Same normal form for the `ais (2).py` variant. -/
theorem find_candidates_ais2_eq_filter (spills : List SpillRecord)
    (vessels : List VesselPosition) (w : ℕ) :
    find_candidates_ais2 spills vessels w
      = (sjoin_within vessels spills).filter (temporal_pred w) := by
  unfold find_candidates_ais2
  rcases spills with _ | ⟨s, ss⟩
  · simp [sjoin_within]
  rcases vessels with _ | ⟨v, vs⟩
  · simp [sjoin_within]
  · simpa using filter_after_empty_guard (sjoin_within (v :: vs) (s :: ss)) _

theorem mem_sjoin_within (vessels : List VesselPosition) (spills : List SpillRecord)
    (v : VesselPosition) (s : SpillRecord) :
    (⟨v, s⟩ : Candidate) ∈ sjoin_within vessels spills
      ↔ v ∈ vessels ∧ s ∈ spills ∧ pointWithin v.geometry s.geometry = true := by
  constructor
  · intro h
    rcases List.mem_flatMap.mp h with ⟨v', hv', hmem⟩
    rcases List.mem_map.mp hmem with ⟨s', hs', heq⟩
    rcases List.mem_filter.mp hs' with ⟨hs'', hq⟩
    cases heq
    exact ⟨hv', hs'', hq⟩
  · rintro ⟨hv, hs, hq⟩
    exact List.mem_flatMap.mpr ⟨v, hv,
      List.mem_map.mpr ⟨s, List.mem_filter.mpr ⟨hs, hq⟩, rfl⟩⟩

theorem count_map_mk (v : VesselPosition) (v' : VesselPosition)
    (s : SpillRecord) (l : List SpillRecord) :
    (l.map fun s' => (⟨v', s'⟩ : Candidate)).count ⟨v, s⟩
      = if v' = v then l.count s else 0 := by
  by_cases hv : v' = v
  · subst hv
    rw [if_pos rfl]
    exact List.count_map_of_injective l _ (fun a b hab => by injection hab) s
  · rw [if_neg hv]
    refine List.count_eq_zero_of_not_mem ?_
    intro hmem
    rcases List.mem_map.mp hmem with ⟨s', _, heq⟩
    exact hv (congrArg Candidate.vessel heq)

theorem count_sjoin_within (vessels : List VesselPosition) (spills : List SpillRecord)
    (v : VesselPosition) (s : SpillRecord) :
    (sjoin_within vessels spills).count ⟨v, s⟩
      = vessels.count v
          * (spills.filter fun s' => pointWithin v.geometry s'.geometry).count s := by
  induction vessels with
  | nil => simp [sjoin_within]
  | cons v' vs ih =>
    have hstep : sjoin_within (v' :: vs) spills
        = ((spills.filter fun s' => pointWithin v'.geometry s'.geometry).map
            fun s' => (⟨v', s'⟩ : Candidate)) ++ sjoin_within vs spills := by
      simp [sjoin_within]
    rw [hstep, List.count_append, ih, count_map_mk, List.count_cons]
    by_cases hv : v' = v
    · subst hv
      simp [add_mul, Nat.add_comm]
    · simp [hv, Ne.symm hv]

theorem count_filter_pointWithin (spills : List SpillRecord) (v : VesselPosition)
    (s : SpillRecord) :
    (spills.filter fun s' => pointWithin v.geometry s'.geometry).count s
      = if pointWithin v.geometry s.geometry = true then spills.count s else 0 := by
  by_cases hq : pointWithin v.geometry s.geometry = true
  · rw [if_pos hq]
    exact List.count_filter hq
  · rw [if_neg hq]
    refine List.count_eq_zero_of_not_mem ?_
    intro hmem
    exact hq (List.mem_filter.mp hmem).2

theorem temporal_pred_iff (w : ℕ) (c : Candidate) :
    temporal_pred w c = true
      ↔ c.spill.detection_date - time_delta w ≤ c.vessel.timestamp
          ∧ c.vessel.timestamp ≤ c.spill.detection_date := by
  simp [temporal_pred, and_comm]

/-! ### C1, C2, C5, C6, C10 -/

/-- C1: for every spill set, vessel position set and window, `find_candidates`
emits a row for the pair `(v, s)` iff `v`'s point satisfies the spatial
`within` predicate against `s`'s polygon and
`detection_date − window ≤ timestamp ≤ detection_date` (closed on both ends);
moreover the number of `⟨v, s⟩` rows equals (occurrences of `v` among the
positions) × (occurrences of `s` among the spills) when the pair qualifies and
0 otherwise — exactly one candidate per qualifying position, with no
deduplication by vessel. -/
theorem find_candidates_characterization (spills : List SpillRecord)
    (vessels : List VesselPosition) (w : ℕ) (v : VesselPosition) (s : SpillRecord) :
    ((⟨v, s⟩ : Candidate) ∈ find_candidates spills vessels w
        ↔ v ∈ vessels ∧ s ∈ spills ∧ pointWithin v.geometry s.geometry = true
            ∧ s.detection_date - time_delta w ≤ v.timestamp
            ∧ v.timestamp ≤ s.detection_date)
    ∧ (find_candidates spills vessels w).count ⟨v, s⟩
        = (if pointWithin v.geometry s.geometry = true
              ∧ s.detection_date - time_delta w ≤ v.timestamp
              ∧ v.timestamp ≤ s.detection_date
           then vessels.count v * spills.count s else 0) := by
  rw [find_candidates_eq_filter]
  constructor
  · rw [List.mem_filter, mem_sjoin_within]
    simp only [temporal_pred, Bool.and_eq_true, decide_eq_true_eq]
    tauto
  · by_cases ht : temporal_pred w (⟨v, s⟩ : Candidate) = true
    · rw [List.count_filter ht, count_sjoin_within, count_filter_pointWithin]
      simp only [temporal_pred, Bool.and_eq_true, decide_eq_true_eq] at ht
      by_cases hq : pointWithin v.geometry s.geometry = true
      · rw [if_pos hq, if_pos ⟨hq, ht.2, ht.1⟩]
      · rw [if_neg hq, if_neg (by tauto), mul_zero]
    · have h0 : ((sjoin_within vessels spills).filter (temporal_pred w)).count
          (⟨v, s⟩ : Candidate) = 0 := by
        refine List.count_eq_zero_of_not_mem ?_
        intro hm
        exact ht (List.mem_filter.mp hm).2
      rw [h0, if_neg]
      simp only [temporal_pred, Bool.and_eq_true, decide_eq_true_eq] at ht
      tauto

/-- C2 (amended): a vessel position exactly on the spill polygon's boundary is
*not* reported as contained — `gpd.sjoin(..., predicate='within')` uses the
DE-9IM `within` predicate, which holds only for interior points — so such a
position never yields a Candidate, whatever the temporal situation. -/
theorem boundary_position_not_candidate (spills : List SpillRecord)
    (vessels : List VesselPosition) (w : ℕ) (v : VesselPosition) (s : SpillRecord)
    (h : pointOnBoundary v.geometry s.geometry = true) :
    pointWithin v.geometry s.geometry = false
      ∧ (⟨v, s⟩ : Candidate) ∉ find_candidates spills vessels w := by
  have hw : pointWithin v.geometry s.geometry = false := by
    simp [pointWithin, h]
  refine ⟨hw, ?_⟩
  rw [find_candidates_eq_filter]
  intro hm
  have hmem := (mem_sjoin_within _ _ _ _).mp (List.mem_filter.mp hm).1
  rw [hw] at hmem
  exact absurd hmem.2.2 (by simp)

theorem boundary_position_not_candidate_witness :
    pointWithin boundaryVessel.geometry demoSpill.geometry = false
      ∧ (⟨boundaryVessel, demoSpill⟩ : Candidate) ∉
          find_candidates [demoSpill] [boundaryVessel] 24 :=
  boundary_position_not_candidate [demoSpill] [boundaryVessel] 24 boundaryVessel
    demoSpill
    (by norm_num [boundaryVessel, demoSpill, pointOnBoundary, polygonEdges,
      pointOnSegment, demoPoly])

/-- C2 counterexample: the vessel at `(0, 2)` lies exactly on the boundary of
the square spill polygon and satisfies the temporal predicate for a 24-hour
window, yet it is not reported as contained and `find_candidates` emits no
Candidate — refuting boundary-inclusive containment. -/
theorem boundary_candidate_refuted :
    pointOnBoundary boundaryVessel.geometry demoSpill.geometry = true
      ∧ demoSpill.detection_date - time_delta 24 ≤ boundaryVessel.timestamp
      ∧ boundaryVessel.timestamp ≤ demoSpill.detection_date
      ∧ pointWithin boundaryVessel.geometry demoSpill.geometry = false
      ∧ find_candidates [demoSpill] [boundaryVessel] 24 = [] := by
  refine ⟨?_, by decide, by decide, ?_, ?_⟩
  · norm_num [boundaryVessel, demoSpill, pointOnBoundary, polygonEdges,
      pointOnSegment, demoPoly]
  · norm_num [boundaryVessel, demoSpill, pointWithin, pointOnBoundary,
      polygonEdges, pointOnSegment, demoPoly]
  · norm_num [find_candidates, sjoin_within, boundaryVessel, demoSpill,
      pointWithin, pointOnBoundary, polygonEdges, pointOnSegment, demoPoly,
      raycastOdd, edgeCrosses]

/-- C5: for fixed inputs, widening the window only adds candidates: any
candidate produced with window `w₁ ≤ w₂` is also produced with `w₂`. -/
theorem find_candidates_window_mono (spills : List SpillRecord)
    (vessels : List VesselPosition) (w₁ w₂ : ℕ) (h : w₁ ≤ w₂) (c : Candidate)
    (hc : c ∈ find_candidates spills vessels w₁) :
    c ∈ find_candidates spills vessels w₂ := by
  rw [find_candidates_eq_filter] at hc ⊢
  rcases List.mem_filter.mp hc with ⟨hmem, hp⟩
  refine List.mem_filter.mpr ⟨hmem, ?_⟩
  simp only [temporal_pred, Bool.and_eq_true, decide_eq_true_eq] at hp ⊢
  refine ⟨hp.1, le_trans ?_ hp.2⟩
  have hd : time_delta w₁ ≤ time_delta w₂ := by
    simp only [time_delta]
    have hww : (w₁ : ℤ) ≤ (w₂ : ℤ) := by exact_mod_cast h
    nlinarith
  omega

theorem find_candidates_window_mono_witness :
    (5 : ℕ) ≤ 24 ∧ demoCand ∈ find_candidates [demoSpill] [demoVessel] 24 :=
  ⟨by decide,
    find_candidates_window_mono [demoSpill] [demoVessel] 5 24 (by decide) demoCand
      (by norm_num [find_candidates, sjoin_within, temporal_pred, time_delta,
        demoCand, demoSpill, demoVessel, pointWithin, pointOnBoundary,
        raycastOdd, polygonEdges, edgeCrosses, pointOnSegment, demoPoly])⟩

/-- C6: with an empty spill collection or an empty vessel collection every
matcher variant returns the empty candidate set (the functions are total, so
no error can be raised). -/
theorem find_candidates_empty_input (spills : List SpillRecord)
    (vessels : List VesselPosition) (w : ℕ) (h : spills = [] ∨ vessels = []) :
    find_candidates spills vessels w = []
      ∧ find_candidates_app (some spills) (some vessels) w = []
      ∧ find_candidates_ais2 spills vessels w = [] := by
  have hj : sjoin_within vessels spills = [] := by
    rcases h with h | h
    · subst h
      exact sjoin_within_nil_spills vessels
    · subst h
      rfl
  rw [find_candidates_eq_filter, find_candidates_app_eq_filter,
    find_candidates_ais2_eq_filter, hj]
  simp

theorem find_candidates_empty_input_witness :
    find_candidates [] [demoVessel] 24 = []
      ∧ find_candidates_app (some []) (some [demoVessel]) 24 = []
      ∧ find_candidates_ais2 [] [demoVessel] 24 = [] :=
  find_candidates_empty_input [] [demoVessel] 24 (Or.inl rfl)

/-- C10: the candidate matcher is unchanged across the three source variants:
on every (non-`None`) spill set, vessel set and window, `find_candidates` of
`src/app.py` and of `src/unnamed/part_000` return exactly the candidate set of
`src/ais.py`'s `find_candidates`. -/
theorem find_candidates_variants_agree (spills : List SpillRecord)
    (vessels : List VesselPosition) (w : ℕ) :
    find_candidates_app (some spills) (some vessels) w
        = find_candidates spills vessels w
      ∧ find_candidates_ais2 spills vessels w = find_candidates spills vessels w := by
  rw [find_candidates_eq_filter, find_candidates_app_eq_filter,
    find_candidates_ais2_eq_filter]
  exact ⟨rfl, rfl⟩

/-! ### C4: duplicate invariance of the per-vessel aggregates -/

theorem drop_dup_aux_append_dup (c' : Candidate) (l : List Candidate) :
    ∀ seen : List (ℤ × String),
      ((c'.vessel.mmsi, c'.spill.spill_id) ∈ seen
        ∨ (c'.vessel.mmsi, c'.spill.spill_id)
            ∈ l.map fun c => (c.vessel.mmsi, c.spill.spill_id)) →
      drop_duplicates_mmsi_spill_aux seen (l ++ [c'])
        = drop_duplicates_mmsi_spill_aux seen l := by
  induction l with
  | nil =>
    intro seen h
    rcases h with h | h
    · simp [drop_duplicates_mmsi_spill_aux, h]
    · simp at h
  | cons c cs ih =>
    intro seen h
    simp only [List.cons_append, drop_duplicates_mmsi_spill_aux]
    by_cases hc : (c.vessel.mmsi, c.spill.spill_id) ∈ seen
    · rw [if_pos hc, if_pos hc]
      refine ih seen ?_
      rcases h with h | h
      · exact Or.inl h
      · rw [List.map_cons, List.mem_cons] at h
        rcases h with h | h
        · exact Or.inl (by rw [h]; exact hc)
        · exact Or.inr h
    · rw [if_neg hc, if_neg hc]
      congr 1
      refine ih _ ?_
      rcases h with h | h
      · exact Or.inl (List.mem_cons_of_mem _ h)
      · rw [List.map_cons, List.mem_cons] at h
        rcases h with h | h
        · exact Or.inl (by rw [h]; exact List.mem_cons_self _ _)
        · exact Or.inr h

/-- C4: the per-vessel incident counts and area sums depend only on the
distinct (mmsi, spill_id) pairs — appending a duplicate candidate row (same
vessel, same spill identifier, any position) leaves `unique_incidents` and
hence both per-vessel mappings unchanged, at every key. -/
theorem aggregates_dup_invariant (l : List Candidate) (c' : Candidate)
    (h : ∃ c ∈ l, c.vessel.mmsi = c'.vessel.mmsi
        ∧ c.spill.spill_id = c'.spill.spill_id) :
    unique_incidents (l ++ [c']) = unique_incidents l
      ∧ ∀ m : ℤ, ship_incident_count (l ++ [c']) m = ship_incident_count l m
          ∧ ship_area_sum (l ++ [c']) m = ship_area_sum l m := by
  have hkey : (c'.vessel.mmsi, c'.spill.spill_id)
      ∈ l.map fun c => (c.vessel.mmsi, c.spill.spill_id) := by
    rcases h with ⟨c, hc, h1, h2⟩
    exact List.mem_map.mpr ⟨c, hc, by rw [h1, h2]⟩
  have hu : unique_incidents (l ++ [c']) = unique_incidents l :=
    drop_dup_aux_append_dup c' l [] (Or.inr hkey)
  refine ⟨hu, fun m => ⟨?_, ?_⟩⟩
  · unfold ship_incident_count
    rw [hu]
  · unfold ship_area_sum
    rw [hu]

theorem aggregates_dup_invariant_witness :
    unique_incidents ([demoCand] ++ [demoCand2]) = unique_incidents [demoCand]
      ∧ ∀ m : ℤ, ship_incident_count ([demoCand] ++ [demoCand2]) m
            = ship_incident_count [demoCand] m
          ∧ ship_area_sum ([demoCand] ++ [demoCand2]) m = ship_area_sum [demoCand] m :=
  aggregates_dup_invariant [demoCand] demoCand2
    ⟨demoCand, List.mem_singleton_self demoCand, rfl, rfl⟩

/-! ### C3: prime-suspect selection -/

theorem idxmin_loc_cons (x y : Candidate) (ys : List Candidate) :
    idxmin_loc x (y :: ys)
      = if time_to_detection y < time_to_detection x then idxmin_loc y ys
        else idxmin_loc x ys := by
  by_cases hy : time_to_detection y < time_to_detection x <;>
    simp [idxmin_loc, hy]

/-- The fold behind `idxmin` returns the first element of the group attaining
the minimal `time_to_detection`: everything before it is strictly larger,
everything after it is at least as large. -/
theorem idxmin_loc_first_min (x : Candidate) (xs : List Candidate) :
    ∃ l₁ l₂, x :: xs = l₁ ++ idxmin_loc x xs :: l₂
      ∧ (∀ c ∈ l₁, time_to_detection (idxmin_loc x xs) < time_to_detection c)
      ∧ (∀ c ∈ l₂, time_to_detection (idxmin_loc x xs) ≤ time_to_detection c) := by
  induction xs generalizing x with
  | nil => exact ⟨[], [], rfl, by simp, by simp⟩
  | cons y ys ih =>
    rw [idxmin_loc_cons]
    by_cases hy : time_to_detection y < time_to_detection x
    · rw [if_pos hy]
      rcases ih y with ⟨l₁, l₂, hsplit, h₁, h₂⟩
      have hall : ∀ c ∈ y :: ys,
          time_to_detection (idxmin_loc y ys) ≤ time_to_detection c := by
        intro c hc
        rw [hsplit] at hc
        rcases List.mem_append.mp hc with hc | hc
        · exact le_of_lt (h₁ c hc)
        · rcases List.mem_cons.mp hc with hc | hc
          · rw [hc]
          · exact h₂ c hc
      refine ⟨x :: l₁, l₂, ?_, ?_, h₂⟩
      · rw [List.cons_append, ← hsplit]
      · intro c hc
        rcases List.mem_cons.mp hc with hc | hc
        · rw [hc]
          exact lt_of_le_of_lt (hall y (List.mem_cons_self y ys)) hy
        · exact h₁ c hc
    · rw [if_neg hy]
      rcases ih x with ⟨l₁, l₂, hsplit, h₁, h₂⟩
      rcases l₁ with _ | ⟨a, l₁'⟩
      · injection hsplit with hxr hys
        refine ⟨[], y :: ys, ?_, by simp, ?_⟩
        · rw [List.nil_append, ← hxr]
        · intro c hc
          rcases List.mem_cons.mp hc with hc | hc
          · rw [hc, ← hxr]
            exact le_of_not_lt hy
          · exact h₂ c (hys ▸ hc)
      · injection hsplit with hxa hys
        refine ⟨x :: y :: l₁', l₂, ?_, ?_, h₂⟩
        · rw [List.cons_append, List.cons_append]
          exact congrArg (fun t => x :: y :: t) hys
        · intro c hc
          have hrx : time_to_detection (idxmin_loc x ys) < time_to_detection x := by
            have ha := h₁ a (List.mem_cons_self a l₁')
            rw [← hxa] at ha
            exact ha
          rcases List.mem_cons.mp hc with hc | hc
          · rw [hc]
            exact hrx
          · rcases List.mem_cons.mp hc with hc | hc
            · rw [hc]
              exact lt_of_lt_of_le hrx (le_of_not_lt hy)
            · exact h₁ c (List.mem_cons_of_mem a hc)

/-- The value-level `idxmin` selection `prime_suspect` (which ignores index
labels, and therefore the `.loc` fan-out) yields nothing exactly for spills
with no candidate row; and when it yields a row `p`, then `p` is a candidate
of that spill with minimal `time_to_detection`, preceded within the spill's
group (in input order) only by strictly larger times. -/
theorem prime_suspect_spec (candidates_df : List Candidate) (sid : String) :
    (prime_suspect candidates_df sid = none
        ↔ ∀ c ∈ candidates_df, c.spill.spill_id ≠ sid)
    ∧ ∀ p, prime_suspect candidates_df sid = some p →
        p ∈ candidates_df ∧ p.spill.spill_id = sid
          ∧ (∀ c ∈ candidates_df, c.spill.spill_id = sid →
              time_to_detection p ≤ time_to_detection c)
          ∧ ∃ l₁ l₂,
              candidates_df.filter (fun c => decide (c.spill.spill_id = sid))
                  = l₁ ++ p :: l₂
                ∧ (∀ c ∈ l₁, time_to_detection p < time_to_detection c)
                ∧ (∀ c ∈ l₂, time_to_detection p ≤ time_to_detection c) := by
  constructor
  · unfold prime_suspect
    rcases hg : candidates_df.filter (fun c => decide (c.spill.spill_id = sid))
      with _ | ⟨x, xs⟩
    · rw [hg]
      constructor
      · intro _ c hc hcs
        have hmem : c ∈ candidates_df.filter
            (fun c => decide (c.spill.spill_id = sid)) :=
          List.mem_filter.mpr ⟨hc, by simpa using hcs⟩
        rw [hg] at hmem
        exact absurd hmem (List.not_mem_nil c)
      · intro _
        rfl
    · rw [hg]
      constructor
      · intro hcontra
        exact absurd hcontra (by simp)
      · intro hall
        have hx : x ∈ candidates_df.filter
            (fun c => decide (c.spill.spill_id = sid)) := by
          rw [hg]
          exact List.mem_cons_self x xs
        rcases List.mem_filter.mp hx with ⟨hx1, hx2⟩
        exact absurd (by simpa using hx2) (hall x hx1)
  · intro p hp
    unfold prime_suspect at hp
    rcases hg : candidates_df.filter (fun c => decide (c.spill.spill_id = sid))
      with _ | ⟨x, xs⟩
    · rw [hg] at hp
      exact absurd hp (by simp)
    · rw [hg] at hp
      simp only [Option.some.injEq] at hp
      rcases idxmin_loc_first_min x xs with ⟨l₁, l₂, hsplit, h₁, h₂⟩
      have hpmemg : p ∈ x :: xs := by
        rw [← hp, hsplit]
        exact List.mem_append.mpr (Or.inr (List.mem_cons_self _ _))
      have hpmemf : p ∈ candidates_df.filter
          (fun c => decide (c.spill.spill_id = sid)) := by
        rw [hg]
        exact hpmemg
      rcases List.mem_filter.mp hpmemf with ⟨hpmem, hpsid⟩
      refine ⟨hpmem, by simpa using hpsid, ?_, l₁, l₂, ?_, ?_, ?_⟩
      · intro c hc hcs
        have hcf : c ∈ x :: xs := by
          rw [← hg]
          exact List.mem_filter.mpr ⟨hc, by simpa using hcs⟩
        rw [hsplit] at hcf
        rcases List.mem_append.mp hcf with hcf | hcf
        · exact le_of_lt (hp ▸ h₁ c hcf)
        · rcases List.mem_cons.mp hcf with hcf | hcf
          · rw [← hp, hcf]
          · exact hp ▸ h₂ c hcf
      · rw [hg, hsplit, hp]
      · intro c hc
        exact hp ▸ h₁ c hc
      · intro c hc
        exact hp ▸ h₂ c hc

theorem prime_suspect_tie_break_witness :
    suspectA ∈ demoTieList ∧ suspectA.spill.spill_id = "2024-01-10_12:00:00"
      ∧ (∀ c ∈ demoTieList, c.spill.spill_id = "2024-01-10_12:00:00" →
          time_to_detection suspectA ≤ time_to_detection c)
      ∧ ∃ l₁ l₂,
          demoTieList.filter
              (fun c => decide (c.spill.spill_id = "2024-01-10_12:00:00"))
              = l₁ ++ suspectA :: l₂
            ∧ (∀ c ∈ l₁, time_to_detection suspectA < time_to_detection c)
            ∧ (∀ c ∈ l₂, time_to_detection suspectA ≤ time_to_detection c) :=
  (prime_suspect_spec demoTieList "2024-01-10_12:00:00").2 suspectA rfl

/-! ### C7, C8: loaders and schema errors -/

/-- C7: with the required fields present, the spill loader derives
`detection_date` by the date+time strategy when both optional columns exist
and by the fixed-pattern parse of the identifier otherwise; exactly the rows
whose applicable strategy parses are retained (each with that parsed
timestamp), the rest are dropped; and in the `src/app.py` variant the drop is
equally non-fatal — it returns the same surviving records (as `None` only
when nothing survives). -/
theorem load_spills_detection_strategy (to_datetime to_datetime_fmt : String → Option ℤ)
    (tbl : RawSpillTable)
    (h : tbl.has_slick_name = true ∧ tbl.has_area_sys = true) :
    load_spills_data to_datetime to_datetime_fmt tbl
        = (tbl.rows.filterMap fun row =>
            (if tbl.has_date && tbl.has_time then
                to_datetime (row.date ++ " " ++ row.time)
              else to_datetime_fmt row.slick_name).map fun d =>
              { spill_id := row.slick_name, geometry := row.geometry
                detection_date := d, area_sq_km := row.area_sys })
      ∧ load_spills_data_app to_datetime to_datetime_fmt tbl
          = (if (load_spills_data to_datetime to_datetime_fmt tbl).isEmpty then none
             else some (load_spills_data to_datetime to_datetime_fmt tbl)) := by
  constructor
  · unfold load_spills_data
    rw [h.1, h.2]
    simp only [Bool.not_true, Bool.and_self, Bool.false_eq_true, if_false,
      List.filterMap_map]
    rfl
  · unfold load_spills_data_app
    rw [h.1, h.2]
    simp

theorem load_spills_detection_strategy_witness :
    load_spills_data demoParse demoParseFmt demoSpillTbl
        = (demoSpillTbl.rows.filterMap fun row =>
            (if demoSpillTbl.has_date && demoSpillTbl.has_time then
                demoParse (row.date ++ " " ++ row.time)
              else demoParseFmt row.slick_name).map fun d =>
              { spill_id := row.slick_name, geometry := row.geometry
                detection_date := d, area_sq_km := row.area_sys })
      ∧ load_spills_data_app demoParse demoParseFmt demoSpillTbl
          = (if (load_spills_data demoParse demoParseFmt demoSpillTbl).isEmpty then none
             else some (load_spills_data demoParse demoParseFmt demoSpillTbl)) :=
  load_spills_detection_strategy demoParse demoParseFmt demoSpillTbl ⟨rfl, rfl⟩

/-- C8: if required fields are missing from the spills source
(`slick_name`/`area_sys`) or from the AIS source
(`mmsi`/`latitude`/`longitude`/`BaseDateTime`), the affected loader reports
the schema error and yields its no-usable-data sentinel (the empty collection
in `src/ais.py`, `None` in `src/app.py`) and the run stops with no analysis
results — never a partial result from the malformed source. -/
theorem schema_error_stops (to_datetime to_datetime_fmt to_datetime_ais : String → Option ℤ)
    (tblS : RawSpillTable) (tblV : RawAisTable) (w : ℕ)
    (h : (tblS.has_slick_name && tblS.has_area_sys) = false
        ∨ (tblV.has_mmsi && tblV.has_latitude && tblV.has_longitude
            && tblV.has_base_date_time) = false) :
    (load_spills_data to_datetime to_datetime_fmt tblS = []
        ∧ load_spills_data_app to_datetime to_datetime_fmt tblS = none
      ∨ load_ais_data to_datetime_ais tblV = [])
      ∧ run_analysis to_datetime to_datetime_fmt to_datetime_ais tblS tblV w = none := by
  rcases h with h | h
  · have h1 : load_spills_data to_datetime to_datetime_fmt tblS = [] := by
      unfold load_spills_data
      rw [h]
      rfl
    have h2 : load_spills_data_app to_datetime to_datetime_fmt tblS = none := by
      unfold load_spills_data_app
      rw [h]
      rfl
    refine ⟨Or.inl ⟨h1, h2⟩, ?_⟩
    unfold run_analysis
    rw [h1]
    rfl
  · have h1 : load_ais_data to_datetime_ais tblV = [] := by
      unfold load_ais_data
      rw [h]
      rfl
    refine ⟨Or.inr h1, ?_⟩
    unfold run_analysis
    rw [h1]
    simp

theorem schema_error_stops_witness :
    (load_spills_data demoParse demoParseFmt demoBadSpillTbl = []
        ∧ load_spills_data_app demoParse demoParseFmt demoBadSpillTbl = none
      ∨ load_ais_data demoParse demoAisTbl = [])
      ∧ run_analysis demoParse demoParseFmt demoParse demoBadSpillTbl demoAisTbl 24
          = none :=
  schema_error_stops demoParse demoParseFmt demoParse demoBadSpillTbl demoAisTbl 24
    (Or.inl rfl)

/-! ### C9: state effects of the aggregation block -/

/-- C9 counterexample: the prime-suspect selection does *not* leave the input
candidate collection unchanged — on a frame without the `time_to_detection`
column, `candidates_df['time_to_detection'] = candidates_df['detection_date']
- candidates_df['timestamp']` assigns that column to the shared frame in
place, so the frame after the step differs from the frame before it. -/
theorem prime_suspects_step_mutates :
    (prime_suspects_step ⟨[demoCand], none⟩).1
      ≠ (⟨[demoCand], none⟩ : CandidatesFrame) := by
  intro hcontra
  have hcol := congrArg CandidatesFrame.ttd_col hcontra
  simp [prime_suspects_step] at hcol

/-- C9 (amended): the incident-count, area-sum and spill-candidate-count
aggregations leave the candidate frame unchanged; the prime-suspect step
changes it only by assigning the derived `time_to_detection` column (the rows
themselves are preserved and re-running the step is stable); and every
aggregate is a function of the rows alone, hence re-derivable at any time
from the same candidate rows with identical results. -/
theorem aggregates_frame_spec (df : CandidatesFrame) :
    (ship_incident_counts_step df).1 = df
      ∧ (ship_area_sum_step df).1 = df
      ∧ (spill_candidate_counts_step df).1 = df
      ∧ (prime_suspects_step df).1
          = { rows := df.rows, ttd_col := some (df.rows.map time_to_detection) }
      ∧ ((prime_suspects_step df).1).rows = df.rows
      ∧ prime_suspects_step ((prime_suspects_step df).1) = prime_suspects_step df
      ∧ ∀ df₂ : CandidatesFrame, df₂.rows = df.rows →
          (ship_incident_counts_step df₂).2 = (ship_incident_counts_step df).2
            ∧ (ship_area_sum_step df₂).2 = (ship_area_sum_step df).2
            ∧ (spill_candidate_counts_step df₂).2 = (spill_candidate_counts_step df).2
            ∧ (prime_suspects_step df₂).2 = (prime_suspects_step df).2 := by
  refine ⟨rfl, rfl, rfl, rfl, rfl, rfl, ?_⟩
  intro df₂ hrows
  refine ⟨?_, ?_, ?_, ?_⟩ <;>
    simp [ship_incident_counts_step, ship_area_sum_step,
      spill_candidate_counts_step, prime_suspects_step, hrows]

theorem aggregates_frame_spec_witness :
    (prime_suspects_step ((prime_suspects_step (⟨[demoCand], none⟩ : CandidatesFrame)).1)
        = prime_suspects_step (⟨[demoCand], none⟩ : CandidatesFrame))
      ∧ (prime_suspects_step (⟨[demoCand], some [0]⟩ : CandidatesFrame)).2
          = (prime_suspects_step (⟨[demoCand], none⟩ : CandidatesFrame)).2 :=
  ⟨(aggregates_frame_spec ⟨[demoCand], none⟩).2.2.2.2.2.1,
    ((aggregates_frame_spec ⟨[demoCand], none⟩).2.2.2.2.2.2
      ⟨[demoCand], some [0]⟩ rfl).2.2.2⟩

/-! ### C3: the labeled prime-suspect pipeline -/

theorem filter_after_empty_guard_idx (l : List (ℕ × Candidate))
    (p : ℕ × Candidate → Bool) :
    (if l.isEmpty then ([] : List (ℕ × Candidate)) else l.filter p) = l.filter p := by
  cases l <;> simp

/-- The labeled matcher is the temporal filter of the labeled join: the two
emptiness guards never change the result. -/
theorem find_candidates_idx_eq_filter (spills : List SpillRecord)
    (vessels : List VesselPosition) (w : ℕ) :
    find_candidates_idx spills vessels w
      = (sjoin_within_idx vessels spills).filter fun ic => temporal_pred w ic.2 := by
  unfold find_candidates_idx
  rcases spills with _ | ⟨s, ss⟩
  · simp [sjoin_within_idx]
  rcases vessels with _ | ⟨v, vs⟩
  · simp [sjoin_within_idx, with_index_from]
  · simpa using filter_after_empty_guard_idx (sjoin_within_idx (v :: vs) (s :: ss))
      (fun ic => temporal_pred w ic.2)

theorem sjoin_within_idx_from_snd (vessels : List VesselPosition)
    (spills : List SpillRecord) :
    ∀ n : ℕ,
      ((with_index_from n vessels).flatMap fun iv =>
          (spills.filter fun s => pointWithin iv.2.geometry s.geometry).map fun s =>
            ((iv.1 : ℕ), (⟨iv.2, s⟩ : Candidate))).map Prod.snd
        = sjoin_within vessels spills := by
  induction vessels with
  | nil =>
    intro n
    rfl
  | cons v vs ih =>
    intro n
    simp only [with_index_from, List.flatMap_cons, List.map_append, List.map_map]
    rw [ih (n + 1)]
    simp [sjoin_within, List.map_map, Function.comp]

/-- Forgetting the index labels of the labeled join gives the plain join. -/
theorem sjoin_within_idx_snd (vessels : List VesselPosition)
    (spills : List SpillRecord) :
    (sjoin_within_idx vessels spills).map Prod.snd = sjoin_within vessels spills :=
  sjoin_within_idx_from_snd vessels spills 0

/-- Coherence of the two matcher models: dropping the labels of
`find_candidates_idx` gives exactly `find_candidates`. -/
theorem find_candidates_idx_snd (spills : List SpillRecord)
    (vessels : List VesselPosition) (w : ℕ) :
    (find_candidates_idx spills vessels w).map Prod.snd
      = find_candidates spills vessels w := by
  rw [find_candidates_idx_eq_filter, find_candidates_eq_filter,
    ← sjoin_within_idx_snd, List.filter_map]
  rfl

theorem idxmin_row_cons (x y : ℕ × Candidate) (ys : List (ℕ × Candidate)) :
    idxmin_row x (y :: ys)
      = if time_to_detection y.2 < time_to_detection x.2 then idxmin_row y ys
        else idxmin_row x ys := by
  by_cases hy : time_to_detection y.2 < time_to_detection x.2 <;>
    simp [idxmin_row, hy]

/-- The labeled `idxmin` fold returns the first row of the group attaining the
minimal `time_to_detection`: everything before it is strictly larger,
everything after it is at least as large. -/
theorem idxmin_row_first_min (x : ℕ × Candidate) (xs : List (ℕ × Candidate)) :
    ∃ l₁ l₂, x :: xs = l₁ ++ idxmin_row x xs :: l₂
      ∧ (∀ c ∈ l₁, time_to_detection (idxmin_row x xs).2 < time_to_detection c.2)
      ∧ (∀ c ∈ l₂, time_to_detection (idxmin_row x xs).2 ≤ time_to_detection c.2) := by
  induction xs generalizing x with
  | nil => exact ⟨[], [], rfl, by simp, by simp⟩
  | cons y ys ih =>
    rw [idxmin_row_cons]
    by_cases hy : time_to_detection y.2 < time_to_detection x.2
    · rw [if_pos hy]
      rcases ih y with ⟨l₁, l₂, hsplit, h₁, h₂⟩
      have hall : ∀ c ∈ y :: ys,
          time_to_detection (idxmin_row y ys).2 ≤ time_to_detection c.2 := by
        intro c hc
        rw [hsplit] at hc
        rcases List.mem_append.mp hc with hc | hc
        · exact le_of_lt (h₁ c hc)
        · rcases List.mem_cons.mp hc with hc | hc
          · rw [hc]
          · exact h₂ c hc
      refine ⟨x :: l₁, l₂, ?_, ?_, h₂⟩
      · rw [List.cons_append, ← hsplit]
      · intro c hc
        rcases List.mem_cons.mp hc with hc | hc
        · rw [hc]
          exact lt_of_le_of_lt (hall y (List.mem_cons_self y ys)) hy
        · exact h₁ c hc
    · rw [if_neg hy]
      rcases ih x with ⟨l₁, l₂, hsplit, h₁, h₂⟩
      rcases l₁ with _ | ⟨a, l₁'⟩
      · injection hsplit with hxr hys
        refine ⟨[], y :: ys, ?_, by simp, ?_⟩
        · rw [List.nil_append, ← hxr]
        · intro c hc
          rcases List.mem_cons.mp hc with hc | hc
          · rw [hc, ← hxr]
            exact le_of_not_lt hy
          · exact h₂ c (hys ▸ hc)
      · injection hsplit with hxa hys
        refine ⟨x :: y :: l₁', l₂, ?_, ?_, h₂⟩
        · rw [List.cons_append, List.cons_append]
          exact congrArg (fun t => x :: y :: t) hys
        · intro c hc
          have hrx : time_to_detection (idxmin_row x ys).2 < time_to_detection x.2 := by
            have ha := h₁ a (List.mem_cons_self a l₁')
            rw [← hxa] at ha
            exact ha
          rcases List.mem_cons.mp hc with hc | hc
          · rw [hc]
            exact hrx
          · rcases List.mem_cons.mp hc with hc | hc
            · rw [hc]
              exact lt_of_lt_of_le hrx (le_of_not_lt hy)
            · exact h₁ c (List.mem_cons_of_mem a hc)

/-- On a frame whose labels are pairwise distinct, the `.loc` lookup of a
present row's label returns exactly that row. -/
theorem filter_fst_nodup (rows : List (ℕ × Candidate)) {q : ℕ × Candidate}
    (hnd : (rows.map Prod.fst).Nodup) (hmem : q ∈ rows) :
    rows.filter (fun ic => decide (ic.1 = q.1)) = [q] := by
  induction rows with
  | nil => exact absurd hmem (List.not_mem_nil q)
  | cons r rs ih =>
    rw [List.map_cons, List.nodup_cons] at hnd
    rcases List.mem_cons.mp hmem with hm | hm
    · subst hm
      rw [List.filter_cons_of_pos (by simp)]
      have hzero : rs.filter (fun ic => decide (ic.1 = q.1)) = [] := by
        rw [List.filter_eq_nil_iff]
        intro ic hic
        simp only [decide_eq_true_eq]
        intro hcontra
        exact hnd.1 (by rw [← hcontra]; exact List.mem_map_of_mem Prod.fst hic)
      rw [hzero]
    · have hne : ¬(r.1 = q.1) := by
        intro hcontra
        exact hnd.1 (by rw [hcontra]; exact List.mem_map_of_mem Prod.fst hm)
      rw [List.filter_cons_of_neg (by simpa using hne)]
      exact ih hnd.2 hm

/-- C3 (amended): per spill, `prime_suspects_idx` selects exactly one index
label — `none` exactly for the spills with no candidate row, otherwise the
label of the spill's first-encountered row of minimal `time_to_detection`
(ties broken by input order at the label level); but the subsequent
`candidates_df.loc` lookup returns *every* row bearing the selected label, so
a frame with duplicate labels — a vessel position matched to several
overlapping spills — can emit several rows per spill, including rows that are
not minimal for their own spill.  When the frame's labels are pairwise
distinct, the lookup degenerates to the original claim: exactly the one
minimal, first-encountered candidate row per spill. -/
theorem prime_suspects_idx_spec (rows : List (ℕ × Candidate)) (sid : String) :
    (prime_suspects_idx rows sid = none ↔ ∀ ic ∈ rows, ic.2.spill.spill_id ≠ sid)
    ∧ ∀ label, prime_suspects_idx rows sid = some label →
        prime_suspects_rows rows sid = loc_rows rows label
          ∧ ∃ q l₁ l₂,
              q ∈ rows ∧ q.1 = label ∧ q.2.spill.spill_id = sid
                ∧ (rows.filter fun ic => decide (ic.2.spill.spill_id = sid))
                    = l₁ ++ q :: l₂
                ∧ (∀ ic ∈ l₁, time_to_detection q.2 < time_to_detection ic.2)
                ∧ (∀ ic ∈ l₂, time_to_detection q.2 ≤ time_to_detection ic.2)
                ∧ ((rows.map Prod.fst).Nodup →
                    prime_suspects_rows rows sid = [q]) := by
  constructor
  · unfold prime_suspects_idx
    rcases hg : rows.filter (fun ic => decide (ic.2.spill.spill_id = sid))
      with _ | ⟨x, xs⟩
    · rw [hg]
      constructor
      · intro _ ic hic his
        have hmem : ic ∈ rows.filter (fun ic => decide (ic.2.spill.spill_id = sid)) :=
          List.mem_filter.mpr ⟨hic, by simpa using his⟩
        rw [hg] at hmem
        exact absurd hmem (List.not_mem_nil ic)
      · intro _
        rfl
    · rw [hg]
      constructor
      · intro hcontra
        exact absurd hcontra (by simp)
      · intro hall
        have hx : x ∈ rows.filter (fun ic => decide (ic.2.spill.spill_id = sid)) := by
          rw [hg]
          exact List.mem_cons_self x xs
        rcases List.mem_filter.mp hx with ⟨hx1, hx2⟩
        exact absurd (by simpa using hx2) (hall x hx1)
  · intro label hlab
    have hloc : prime_suspects_rows rows sid = loc_rows rows label := by
      unfold prime_suspects_rows
      rw [hlab]
    refine ⟨hloc, ?_⟩
    unfold prime_suspects_idx at hlab
    rcases hg : rows.filter (fun ic => decide (ic.2.spill.spill_id = sid))
      with _ | ⟨x, xs⟩
    · rw [hg] at hlab
      exact absurd hlab (by simp)
    · rw [hg] at hlab
      simp only [Option.some.injEq] at hlab
      rcases idxmin_row_first_min x xs with ⟨l₁, l₂, hsplit, h₁, h₂⟩
      have hqmemg : idxmin_row x xs ∈ x :: xs := by
        rw [hsplit]
        exact List.mem_append.mpr (Or.inr (List.mem_cons_self _ _))
      have hqmemf : idxmin_row x xs ∈ rows.filter
          (fun ic => decide (ic.2.spill.spill_id = sid)) := by
        rw [hg]
        exact hqmemg
      rcases List.mem_filter.mp hqmemf with ⟨hqmem, hqsid⟩
      refine ⟨idxmin_row x xs, l₁, l₂, hqmem, hlab, by simpa using hqsid, ?_,
        h₁, h₂, ?_⟩
      · rw [hg, hsplit]
      · intro hnd
        rw [hloc]
        unfold loc_rows
        rw [← hlab]
        exact filter_fst_nodup rows hnd hqmem

/-- C3 counterexample: with two overlapping spill polygons the matcher itself
produces a frame whose two candidate rows for the shared vessel position bear
the same left-index label `0`; `idxmin` selects label `0` for spill `"sa"`
and label `1` for spill `"sb"`, but the `.loc` lookup for `"sa"` fans out to
*both* rows labeled `0`, so the prime-suspect output holds two rows of spill
`"sb"`, one of which is strictly non-minimal for `"sb"` — refuting "exactly
one PrimeSuspect per spill, and it is minimal". -/
theorem overlapVessel0_within_a : pointWithin (⟨7/2, 2⟩ : Point) demoPoly = true := by
  norm_num [pointWithin, pointOnBoundary, raycastOdd, polygonEdges, edgeCrosses,
    pointOnSegment, demoPoly]

theorem overlapVessel0_within_b :
    pointWithin (⟨7/2, 2⟩ : Point) overlapPolyB = true := by
  norm_num [pointWithin, pointOnBoundary, raycastOdd, polygonEdges, edgeCrosses,
    pointOnSegment, overlapPolyB]

theorem overlapVessel1_within_a : pointWithin (⟨6, 2⟩ : Point) demoPoly = false := by
  norm_num [pointWithin, pointOnBoundary, raycastOdd, polygonEdges, edgeCrosses,
    pointOnSegment, demoPoly]

theorem overlapVessel1_within_b :
    pointWithin (⟨6, 2⟩ : Point) overlapPolyB = true := by
  norm_num [pointWithin, pointOnBoundary, raycastOdd, polygonEdges, edgeCrosses,
    pointOnSegment, overlapPolyB]

theorem prime_suspects_loc_fanout :
    find_candidates_idx [overlapSpillA, overlapSpillB]
        [overlapVessel0, overlapVessel1] 24 = overlapRows
      ∧ prime_suspects_idx overlapRows "sa" = some 0
      ∧ prime_suspects_idx overlapRows "sb" = some 1
      ∧ prime_suspects_rows overlapRows "sa"
          = [(0, ⟨overlapVessel0, overlapSpillA⟩), (0, ⟨overlapVessel0, overlapSpillB⟩)]
      ∧ prime_suspects_df_idx overlapRows
          = [(0, ⟨overlapVessel0, overlapSpillA⟩), (0, ⟨overlapVessel0, overlapSpillB⟩),
             (1, ⟨overlapVessel1, overlapSpillB⟩)]
      ∧ ((prime_suspects_df_idx overlapRows).filter
            fun ic => decide (ic.2.spill.spill_id = "sb")).length = 2
      ∧ time_to_detection (⟨overlapVessel1, overlapSpillB⟩ : Candidate)
          < time_to_detection (⟨overlapVessel0, overlapSpillB⟩ : Candidate) := by
  refine ⟨?_, rfl, rfl, rfl, rfl, rfl, by decide⟩
  rw [find_candidates_idx_eq_filter]
  norm_num [sjoin_within_idx, with_index_from, temporal_pred, time_delta,
    overlapRows, overlapSpillA, overlapSpillB, overlapVessel0, overlapVessel1,
    overlapVessel0_within_a, overlapVessel0_within_b, overlapVessel1_within_a,
    overlapVessel1_within_b]

theorem prime_suspects_idx_spec_witness :
    prime_suspects_rows demoIdxTieList "2024-01-10_12:00:00"
        = loc_rows demoIdxTieList 1
      ∧ ∃ q l₁ l₂,
          q ∈ demoIdxTieList ∧ q.1 = 1
            ∧ q.2.spill.spill_id = "2024-01-10_12:00:00"
            ∧ (demoIdxTieList.filter
                fun ic => decide (ic.2.spill.spill_id = "2024-01-10_12:00:00"))
                = l₁ ++ q :: l₂
            ∧ (∀ ic ∈ l₁, time_to_detection q.2 < time_to_detection ic.2)
            ∧ (∀ ic ∈ l₂, time_to_detection q.2 ≤ time_to_detection ic.2)
            ∧ ((demoIdxTieList.map Prod.fst).Nodup →
                prime_suspects_rows demoIdxTieList "2024-01-10_12:00:00" = [q]) :=
  (prime_suspects_idx_spec demoIdxTieList "2024-01-10_12:00:00").2 1 rfl
